import Mathlib

/-!
Shallow embedding of the session/usage core of the browserbase MCP server.

JavaScript plain objects used as string-keyed records (`Record<string, V>`)
and `Map` instances are modelled as association lists `List (String × V)`:
`objGet` is property lookup, `objSet` is property assignment (updating the
first matching key in place, appending a fresh key at the end, which matches
JS insertion-order semantics), `objDelete` is the `delete` operator /
`Map.delete`. JS `Set<string>` is modelled as a `List String` with
membership-guarded append.

Numbers that the source only ever increments by integer amounts are
modelled as `Nat`; token counts coming from the network are modelled as
`Int` since the payload is not constrained by the source.
-/

set_option autoImplicit false

universe u v

/-- Property lookup `container[key]` on a JS object modelled as an
association list: returns the value at the first matching key. -/
def objGet {V : Type u} (m : List (String × V)) (k : String) : Option V :=
  match m with
  | [] => none
  | (k', v) :: rest => if k' = k then some v else objGet rest k

/-- Property assignment `container[key] = v` on a JS object: replaces the
value at the first matching key, or appends the pair when the key is absent. -/
def objSet {V : Type u} (m : List (String × V)) (k : String) (v : V) : List (String × V) :=
  match m with
  | [] => [(k, v)]
  | (k', v') :: rest => if k' = k then (k', v) :: rest else (k', v') :: objSet rest k v

/-- Deletion `delete container[key]` / `Map.delete(key)`: removes every
entry with that key. -/
def objDelete {V : Type u} (m : List (String × V)) (k : String) : List (String × V) :=
  match m with
  | [] => []
  | (k', v) :: rest => if k' = k then objDelete rest k else (k', v) :: objDelete rest k

/-- Sum of `f` over the values of a JS object, used to state the
global-equals-sum-of-sessions invariant. -/
def objSum {V : Type u} (m : List (String × V)) (f : V → Nat) : Nat :=
  (m.map (fun p => f p.2)).sum

/-- Membership-guarded append, the effect of `Set.add` on a JS `Set`
modelled as a list. -/
def setAdd (l : List String) (n : String) : List String :=
  if n ∈ l then l else l ++ [n]

/-! ### UsageMeter (src/mcp/usage.ts)

Both variants of `usage.ts` share the data model and the counter updates; the
second variant additionally threads an optional Stagehand handle whose
`metrics` object is logged. The counter state is modelled here once. -/

/-- StagehandUsageKey from src/mcp/usage.ts. -/
structure StagehandUsageKey where
  sessionId : String
  toolName : String
  operation : String
deriving Repr, DecidableEq

/-- StagehandOperationStats from src/mcp/usage.ts: a call counter plus a
per-tool-name breakdown. -/
structure StagehandOperationStats where
  callCount : Nat
  toolCallCounts : List (String × Nat)
deriving Repr, DecidableEq

/-- StagehandSessionUsage from src/mcp/usage.ts. -/
structure StagehandSessionUsage where
  operations : List (String × StagehandOperationStats)
deriving Repr, DecidableEq

/-- The module-level mutable state of usage.ts: the `globalUsage` and
`perSessionUsage` records. -/
structure UsageState where
  globalUsage : List (String × StagehandOperationStats)
  perSessionUsage : List (String × StagehandSessionUsage)
deriving Repr, DecidableEq

/-- The initial module state: both records start empty. -/
def emptyUsageState : UsageState := ⟨[], []⟩

/-- Value inserted by `getOrCreateOperationStats` when the operation is
absent from the container. -/
def freshOperationStats : StagehandOperationStats := ⟨0, []⟩

/-- Reading `container[operation]` after `getOrCreateOperationStats` ran:
the existing stats object, or the freshly created zero object. -/
def getOrCreateOperationStats
    (container : List (String × StagehandOperationStats)) (operation : String) :
    StagehandOperationStats :=
  match objGet container operation with
  | some st => st
  | none => freshOperationStats

/-- Mutation performed on the stats object returned by
`getOrCreateOperationStats`: `callCount += 1` and
`toolCallCounts[toolName] = (toolCallCounts[toolName] ?? 0) + 1`. -/
def bumpStats (st : StagehandOperationStats) (toolName : String) : StagehandOperationStats :=
  { callCount := st.callCount + 1
    toolCallCounts :=
      objSet st.toolCallCounts toolName
        ((objGet st.toolCallCounts toolName).getD 0 + 1) }

/-- The function recordStagehandCall of src/mcp/usage.ts (first variant,
lines 39-62): bumps the global bucket for the operation, materialises the
session entry when absent, and bumps the session bucket for the operation.
Since the stats object returned by `getOrCreateOperationStats` aliases the
entry inside its container, the in-place mutation is modelled by writing
the bumped stats back at the same key. -/
def recordStagehandCall (s : UsageState) (k : StagehandUsageKey) : UsageState :=
  let globalStats := getOrCreateOperationStats s.globalUsage k.operation
  let newGlobal := objSet s.globalUsage k.operation (bumpStats globalStats k.toolName)
  let sessionUsage := (objGet s.perSessionUsage k.sessionId).getD ⟨[]⟩
  let sessionStats := getOrCreateOperationStats sessionUsage.operations k.operation
  let newSessionUsage : StagehandSessionUsage :=
    ⟨objSet sessionUsage.operations k.operation (bumpStats sessionStats k.toolName)⟩
  { globalUsage := newGlobal
    perSessionUsage := objSet s.perSessionUsage k.sessionId newSessionUsage }

/-- StagehandUsageSnapshot as returned by getUsageSnapshot: the snapshot
object holds references to the two live records, so its fields are exactly
the state's fields at the moment they are read. -/
structure StagehandUsageSnapshot where
  global : List (String × StagehandOperationStats)
  perSession : List (String × StagehandSessionUsage)
deriving Repr, DecidableEq

/-- The function getUsageSnapshot of src/mcp/usage.ts: returns an object
whose `global` and `perSession` properties are (references to) the two
module-level records. -/
def getUsageSnapshot (s : UsageState) : StagehandUsageSnapshot :=
  ⟨s.globalUsage, s.perSessionUsage⟩

/-- The function resetUsage of src/mcp/usage.ts: deletes every key of
`globalUsage` and every key of `perSessionUsage`, leaving both records
empty. -/
def resetUsage (_s : UsageState) : UsageState := ⟨[], []⟩

/-- Folding a whole sequence of recordStagehandCall invocations from a
starting state. -/
def recordAll (s : UsageState) (ks : List StagehandUsageKey) : UsageState :=
  ks.foldl recordStagehandCall s

/-- Call count stored in a container for one operation, `0` when the
operation is absent. -/
def opCallCount (container : List (String × StagehandOperationStats)) (operation : String) : Nat :=
  match objGet container operation with
  | some st => st.callCount
  | none => 0

/-- Per-tool call count stored in a container for one operation, `0` when
the operation or the tool name is absent. -/
def toolCallCount (container : List (String × StagehandOperationStats))
    (operation toolName : String) : Nat :=
  match objGet container operation with
  | some st => (objGet st.toolCallCounts toolName).getD 0
  | none => 0

/-- Call count one session's usage holds for one operation, `0` when that
session never recorded the operation. -/
def sessionOpCallCount (u : StagehandSessionUsage) (operation : String) : Nat :=
  opCallCount u.operations operation

/-- Stats bucket stored for one operation of one session, `none` when the
session or the operation is absent. -/
def sessionOpStats (perSession : List (String × StagehandSessionUsage))
    (sessionId operation : String) : Option StagehandOperationStats :=
  match objGet perSession sessionId with
  | some u => objGet u.operations operation
  | none => none

/-- Call count of one session's bucket for one operation, `0` when absent. -/
def sessionCallCount (perSession : List (String × StagehandSessionUsage))
    (sessionId operation : String) : Nat :=
  match sessionOpStats perSession sessionId operation with
  | some st => st.callCount
  | none => 0

/-- Per-tool call count of one session's bucket for one operation, `0` when
absent. -/
def sessionToolCallCount (perSession : List (String × StagehandSessionUsage))
    (sessionId operation toolName : String) : Nat :=
  match sessionOpStats perSession sessionId operation with
  | some st => (objGet st.toolCallCounts toolName).getD 0
  | none => 0

/-- Sum, over the sessions present in the per-session record, of the call
count each holds for one operation. Sessions absent from the record do not
appear in the sum. -/
def perSessionCallSum (perSession : List (String × StagehandSessionUsage))
    (operation : String) : Nat :=
  objSum perSession (fun u => sessionOpCallCount u operation)

/-- The aggregation invariant of the usage meter: for every operation, the
global call count equals the sum of that operation's call counts over the
sessions present in the per-session record. -/
def usageInvariant (s : UsageState) : Prop :=
  ∀ operation, opCallCount s.globalUsage operation
    = perSessionCallSum s.perSessionUsage operation

/-! ### recordStagehandCall with a Stagehand handle (usage.ts, second variant)

The second variant's `recordStagehandCall` (lines 152-177) performs the same
counter updates and then calls `logStagehandMetrics` (lines 121-150), which
reads `stagehand.metrics` (awaiting it when it is a promise) and, when the
handle and the metrics object are both present (truthy), emits one
structured JSON log line carrying the key and the metrics. The metrics value
is treated as opaque (its shape belongs to the external Stagehand library),
so the model is polymorphic in the metrics type; the combination
"stagehand handle present and its resolved `metrics` truthy" is modelled as
one `Option`. -/

/-- Structured log line emitted by logStagehandMetrics: the usage key plus
the metrics object. -/
structure StagehandLogEntry (M : Type u) where
  key : StagehandUsageKey
  metrics : M
deriving Repr, DecidableEq

/-- The function logStagehandMetrics of src/mcp/usage.ts (second variant):
returns without output when the handle or its metrics is missing, otherwise
emits exactly one structured log line. -/
def logStagehandMetrics {M : Type u} (metrics : Option M) (key : StagehandUsageKey) :
    List (StagehandLogEntry M) :=
  match metrics with
  | some m => [⟨key, m⟩]
  | none => []

/-- The function recordStagehandCall of src/mcp/usage.ts (second variant,
lines 152-177): identical counter updates to the first variant, followed by
logStagehandMetrics. Returns the new counter state together with the log
lines emitted. -/
def recordStagehandCallWithMetrics {M : Type u} (s : UsageState) (k : StagehandUsageKey)
    (metrics : Option M) : UsageState × List (StagehandLogEntry M) :=
  let globalStats := getOrCreateOperationStats s.globalUsage k.operation
  let newGlobal := objSet s.globalUsage k.operation (bumpStats globalStats k.toolName)
  let sessionUsage := (objGet s.perSessionUsage k.sessionId).getD ⟨[]⟩
  let sessionStats := getOrCreateOperationStats sessionUsage.operations k.operation
  let newSessionUsage : StagehandSessionUsage :=
    ⟨objSet sessionUsage.operations k.operation (bumpStats sessionStats k.toolName)⟩
  ({ globalUsage := newGlobal
     perSessionUsage := objSet s.perSessionUsage k.sessionId newSessionUsage },
   logStagehandMetrics metrics ⟨k.sessionId, k.toolName, k.operation⟩)

/-- Token-count metrics shape used to instantiate the polymorphic metrics
slot in concrete counterexamples (the source never inspects the shape). -/
structure UsageMetrics where
  inputTokens : Nat
  outputTokens : Nat
deriving Repr, DecidableEq

/-! ### browserbase_usage_stats tool (usage tool module)

`handleUsage` builds `result` from the snapshot, then (when `reset` is
requested) calls `resetUsage()`, and only then serialises `result` with
`JSON.stringify`. The snapshot returned by `getUsageSnapshot` holds live
references to the two module-level records, and `resetUsage` deletes their
keys in place, while the inner `StagehandSessionUsage` objects are never
mutated. The model therefore keeps `result` symbolic — remembering which
parts reference the live records and which captured an inner object — and
renders it against the state as it stands after the optional reset. -/

/-- Scope argument of browserbase_usage_stats. -/
inductive UsageScope where
  | globalScope
  | perSessionScope
  | allScope
deriving Repr, DecidableEq

/-- Symbolic form of the `result` value built by handleUsage before
serialisation: which parts alias the live records (rendered against the
final state) and which captured a reference to an inner session object
(whose contents survive the reset untouched). -/
inductive UsageResultView where
  | wholeSnapshot
  | globalOnly
  | perSessionOne (sessionId : String) (captured : StagehandSessionUsage)
  | perSessionWhole
  | allWithSession (sessionId : String) (captured : StagehandSessionUsage)
deriving Repr, DecidableEq

/-- The branch structure of handleUsage (usage tool module, lines 45-74)
choosing what `result` holds, given the snapshot taken at entry. -/
def usageResultView (s : UsageState) (scope : UsageScope) (sessionId : Option String) :
    UsageResultView :=
  match scope, sessionId with
  | .globalScope, _ => .globalOnly
  | .perSessionScope, some sid =>
      .perSessionOne sid ((objGet s.perSessionUsage sid).getD ⟨[]⟩)
  | .perSessionScope, none => .perSessionWhole
  | .allScope, some sid =>
      .allWithSession sid ((objGet s.perSessionUsage sid).getD ⟨[]⟩)
  | .allScope, none => .wholeSnapshot

/-- Shape of the JSON text produced by `JSON.stringify(result)`: the
optional `global` and `perSession` properties with their rendered entries. -/
structure UsageStatsOutput where
  global : Option (List (String × StagehandOperationStats))
  perSession : Option (List (String × StagehandSessionUsage))
deriving Repr, DecidableEq

/-- Serialisation of `result` at the end of the action: parts that alias
the live records read the state as it stands at serialisation time, parts
that captured an inner session object render the captured contents. -/
def renderUsageResult (view : UsageResultView) (s : UsageState) : UsageStatsOutput :=
  match view with
  | .wholeSnapshot => ⟨some s.globalUsage, some s.perSessionUsage⟩
  | .globalOnly => ⟨some s.globalUsage, none⟩
  | .perSessionOne sid captured => ⟨none, some [(sid, captured)]⟩
  | .perSessionWhole => ⟨none, some s.perSessionUsage⟩
  | .allWithSession sid captured => ⟨some s.globalUsage, some [(sid, captured)]⟩

/-- The action of handleUsage (usage tool module, lines 45-88): take the
snapshot, select the result per scope/sessionId (defaulting the scope to
"all"), apply `resetUsage` when `reset` is truthy, then serialise the
result. Returns the serialised output together with the final meter state. -/
def handleUsage (s : UsageState) (scope : Option UsageScope) (sessionId : Option String)
    (reset : Bool) : UsageStatsOutput × UsageState :=
  let view := usageResultView s (scope.getD .allScope) sessionId
  let s' := if reset then resetUsage s else s
  (renderUsageResult view s', s')

/-! ### Session close and the Stagehand replay fetch (src/tools/session.ts)

`fetchStagehandTokenUsageSummary` (lines 186-253) returns `null` when an API
key is missing; then awaits `fetch` — this await sits OUTSIDE the
try/catch, so a network failure rejects and propagates to the caller; then,
inside the try, parses the JSON and folds token usage over all pages and
actions — any parse or field-access failure there is caught and yields
`null`. The network round trip is a model input: either a raised error or a
raw response, and the parse/field-access phase is a model input mapping the
raw response to either a raised error or the decoded replay data.

`handleCloseSession` (lines 255-344) is modelled over the outcomes of its
collaborator calls (`getSession`, `cleanupSession`, the replay fetch); its
JS `try`/`catch` and the `cleanupSuccessful` / `cleanupErrorMessage`
variables are translated literally, including the truthiness test
`cleanupErrorMessage && !cleanupSuccessful` (an empty message string is
falsy). Action payload fields not inspected by the summation (method,
parameters, result, timestamps) are omitted from the replay payload model. -/

/-- Per-action token usage record of the replay payload. `timeMs` is
optional; the source adds it only when `typeof ... === "number"`. -/
structure ReplayTokenUsage where
  inputTokens : Int
  outputTokens : Int
  timeMs : Option Int
deriving Repr, DecidableEq

/-- One action of a replay page; only the optional `tokenUsage` record is
consumed by the summation. -/
structure ReplayAction where
  tokenUsage : Option ReplayTokenUsage
deriving Repr, DecidableEq

/-- One page of the replay payload. -/
structure ReplayPage where
  actions : List ReplayAction
deriving Repr, DecidableEq

/-- The decoded replay payload: `replayJson.data` with its pages. -/
structure StagehandReplayData where
  pages : List ReplayPage
deriving Repr, DecidableEq

/-- StagehandReplayTokenUsageTotals from src/tools/session.ts. -/
structure TokenUsageTotals where
  totalInputTokens : Int
  totalOutputTokens : Int
  totalTimeMs : Int
deriving Repr, DecidableEq

/-- Body of the inner aggregation loop of fetchStagehandTokenUsageSummary
(lines 233-241): add `inputTokens` and `outputTokens` of a present
`tokenUsage`, and `timeMs` only when it is a number. -/
def replayActionStep (acc : TokenUsageTotals) (action : ReplayAction) : TokenUsageTotals :=
  match action.tokenUsage with
  | some tu =>
    { totalInputTokens := acc.totalInputTokens + tu.inputTokens
      totalOutputTokens := acc.totalOutputTokens + tu.outputTokens
      totalTimeMs :=
        match tu.timeMs with
        | some t => acc.totalTimeMs + t
        | none => acc.totalTimeMs }
  | none => acc

/-- The aggregation loops of fetchStagehandTokenUsageSummary (lines
226-242): fold `replayActionStep` over all pages and actions, starting from
zero totals. -/
def sumReplayTotals (data : StagehandReplayData) : TokenUsageTotals :=
  data.pages.foldl (fun acc page => page.actions.foldl replayActionStep acc) ⟨0, 0, 0⟩

/-- The function fetchStagehandTokenUsageSummary of src/tools/session.ts
(lines 186-253), over the outcomes of its two effectful phases: missing
keys short-circuit to `null`; a rejected `fetch` propagates (it is outside
the try); a parse or field-access failure inside the try yields `null`;
otherwise the summed totals are returned. -/
def fetchStagehandTokenUsageSummary {R : Type u} (haveKeys : Bool)
    (fetchResult : Except String R)
    (parseReplay : R → Except String StagehandReplayData) :
    Except String (Option TokenUsageTotals) :=
  if haveKeys = false then .ok none
  else
    match fetchResult with
    | .error e => .error e
    | .ok raw =>
      match parseReplay raw with
      | .error _ => .ok none
      | .ok data => .ok (some (sumReplayTotals data))

/-- The session object observed by handleCloseSession: the stored
Browserbase session id and whether the `stagehand` handle is present (the
source tests `session && session.stagehand`). -/
structure CloseableSession where
  sessionId : String
  hasStagehand : Bool
deriving Repr, DecidableEq

/-- The non-thrown outcomes of the browserbase_session_close action: a
success result (with whether the replay link is appended to the message) or
the informational no-active-session result. -/
inductive CloseActionResult where
  | closedSuccessfully (previousSessionId : Option String) (withReplayLink : Bool)
  | noActiveSession (previousSessionId : Option String)
deriving Repr, DecidableEq

/-- The action of handleCloseSession (src/tools/session.ts, lines 256-338),
over the outcomes of its collaborator calls. The first phase mirrors the
try/catch: `getSession` raising or `cleanupSession` raising is caught,
setting `cleanupErrorMessage`; a replay-fetch failure is also caught but
only after `cleanupSuccessful` was already set. The final phase throws
exactly when `cleanupErrorMessage` is truthy and cleanup never succeeded,
returns the success result when cleanup succeeded, and the informational
result otherwise. The replay link is appended when a Browserbase session id
was captured and the previous session id differs from the default id. -/
def handleCloseSession (previousSessionId : Option String) (defaultSessionId : String)
    (getSessionResult : Except String (Option CloseableSession))
    (cleanupResult : Except String Unit)
    (fetchResult : Except String (Option TokenUsageTotals)) :
    Except String CloseActionResult :=
  let phase1 : Option String × Bool × String :=
    match getSessionResult with
    | .error e => (none, false, e)
    | .ok none => (none, false, "")
    | .ok (some session) =>
      if session.hasStagehand then
        match cleanupResult with
        | .error e => (some session.sessionId, false, e)
        | .ok _ =>
          match fetchResult with
          | .error e => (some session.sessionId, true, e)
          | .ok _ => (some session.sessionId, true, "")
      else (none, false, "")
  let browserbaseSessionId := phase1.1
  let cleanupSuccessful := phase1.2.1
  let cleanupErrorMessage := phase1.2.2
  if cleanupErrorMessage ≠ "" ∧ cleanupSuccessful = false then
    .error cleanupErrorMessage
  else if cleanupSuccessful then
    .ok (.closedSuccessfully previousSessionId
      (browserbaseSessionId.isSome && decide (previousSessionId ≠ some defaultSessionId)))
  else
    .ok (.noActiveSession previousSessionId)

/-- All actions of a replay payload, across all pages, in order. -/
def replayActions (data : StagehandReplayData) : List ReplayAction :=
  (data.pages.map ReplayPage.actions).flatten

/-- Token usage records present on the actions of a replay payload. -/
def replayTokenUsages (data : StagehandReplayData) : List ReplayTokenUsage :=
  (replayActions data).filterMap ReplayAction.tokenUsage

/-! ### ResourceStore: screenshot registry and purge (resources module)

The module-level `screenshots` map and the `sessionIdToScreenshotNames`
index are gathered into one state record. The retry wrapper's attempts are
abstracted as an oracle `outcomes` giving each attempt's success or raised
error (in the source, attempt `i` is the `i`-th call of
`clearScreenshotsForSession` inside the try; the `attempt >= retries` test
is represented by the remaining-attempt count reaching zero), and the
`setTimeout` backoff sleeps are collected in order. -/

/-- The module state of the resources module: the `screenshots` map and the
per-session name index. -/
structure ResourceStoreState where
  screenshots : List (String × String)
  sessionIdToScreenshotNames : List (String × List String)
deriving Repr, DecidableEq

/-- The function registerScreenshot of the resources module (lines 20-32):
stores the blob under its name and adds the name to the owning session's
set, creating the set when absent. -/
def registerScreenshot (st : ResourceStoreState) (sessionId name base64 : String) :
    ResourceStoreState :=
  { screenshots := objSet st.screenshots name base64
    sessionIdToScreenshotNames :=
      objSet st.sessionIdToScreenshotNames sessionId
        (setAdd ((objGet st.sessionIdToScreenshotNames sessionId).getD []) name) }

/-- The function clearScreenshotsForSession of the resources module (lines
34-42): when the session has a name set, deletes every named screenshot and
removes the session's index entry; otherwise does nothing. -/
def clearScreenshotsForSession (st : ResourceStoreState) (sessionId : String) :
    ResourceStoreState :=
  match objGet st.sessionIdToScreenshotNames sessionId with
  | some names =>
    { screenshots := names.foldl (fun m n => objDelete m n) st.screenshots
      sessionIdToScreenshotNames := objDelete st.sessionIdToScreenshotNames sessionId }
  | none => st

/-- Ownership hypothesis of the purge claim: every screenshot name is held
by the name set of at most one session in the index. -/
def uniquelyOwned (index : List (String × List String)) : Prop :=
  ∀ n s1 l1 s2 l2, objGet index s1 = some l1 → objGet index s2 = some l2 →
    n ∈ l1 → n ∈ l2 → s1 = s2

/-- Backoff update after a failed attempt: `delay = Math.min(delay * 2, 1000)`. -/
def delayStep (d : Nat) : Nat := min (d * 2) 1000

/-- The delay used before the `j`-th backoff sleep: the initial delay,
doubled after each failure with the 1000 ms cap. -/
def delaySeq (d0 : Nat) : Nat → Nat
  | 0 => d0
  | n + 1 => delayStep (delaySeq d0 n)

/-- Observable trace of one run of the retry wrapper: the returned or
thrown result, the number of attempts performed, and the backoff sleeps in
order. -/
structure RetryRun (E : Type u) where
  result : Except E Unit
  attempts : Nat
  sleeps : List Nat

/-- The while loop of retryClearScreenshotsForSession (lines 60-76):
attempt, return on success, rethrow the caught error when no retries
remain, otherwise sleep the current delay, double it (capped at 1000) and
continue. -/
def retryLoop {E : Type u} (outcomes : Nat → Except E Unit) (attempt delay remaining : Nat) :
    RetryRun E :=
  match outcomes attempt with
  | .ok _ => ⟨.ok (), attempt + 1, []⟩
  | .error e =>
    match remaining with
    | 0 => ⟨.error e, attempt + 1, []⟩
    | r + 1 =>
      let rest := retryLoop outcomes (attempt + 1) (delayStep delay) r
      ⟨rest.result, rest.attempts, delay :: rest.sleeps⟩

/-- The function retryClearScreenshotsForSession of the resources module
(lines 53-77): defaults `retries` to 3 and `initialDelayMs` to 50 and runs
the loop from attempt 0. -/
def retryClearScreenshotsForSession {E : Type u} (outcomes : Nat → Except E Unit)
    (retries initialDelayMs : Option Nat) : RetryRun E :=
  retryLoop outcomes 0 (initialDelayMs.getD 50) (retries.getD 3)

/-- Attempt oracle used to exercise the retry wrapper at a concrete input:
the first two attempts fail, the third succeeds. -/
def failTwiceOutcomes : Nat → Except String Unit :=
  fun i => if i < 2 then .error "transient" else .ok ()

/-- Concrete replay payload used to exercise the fetcher at a concrete
input: three actions across two pages, one without token usage and one
without a numeric `timeMs`. -/
def demoReplayData : StagehandReplayData :=
  ⟨[⟨[⟨some ⟨3, 4, some 10⟩⟩, ⟨none⟩]⟩, ⟨[⟨some ⟨5, 6, none⟩⟩]⟩]⟩

/-- Concrete screenshot store used to exercise the purge at a concrete
input: two screenshots owned by two different sessions. -/
def demoStore : ResourceStoreState :=
  registerScreenshot (registerScreenshot ⟨[], []⟩ "s1" "shot-a" "imgA") "s2" "shot-b" "imgB"

/-! ## Theorems -/

theorem objGet_objSet_self {V : Type u} (m : List (String × V)) (k : String) (v : V) :
    objGet (objSet m k v) k = some v := by
  induction m with
  | nil => simp [objGet, objSet]
  | cons p rest ih =>
    obtain ⟨a, b⟩ := p
    by_cases h : a = k
    · simp [objGet, objSet, h]
    · simp [objGet, objSet, h, ih]

theorem objGet_objSet_ne {V : Type u} (m : List (String × V)) (k k' : String) (v : V)
    (h : k' ≠ k) : objGet (objSet m k v) k' = objGet m k' := by
  have hk : k ≠ k' := Ne.symm h
  induction m with
  | nil => simp [objGet, objSet, hk]
  | cons p rest ih =>
    obtain ⟨a, b⟩ := p
    by_cases h2 : a = k
    · subst h2
      simp [objGet, objSet, hk]
    · by_cases h3 : a = k'
      · simp [objGet, objSet, h2, h3, h]
      · simp [objGet, objSet, h2, h3, ih]

theorem objGet_objDelete_self {V : Type u} (m : List (String × V)) (k : String) :
    objGet (objDelete m k) k = none := by
  induction m with
  | nil => rfl
  | cons p rest ih =>
    obtain ⟨a, b⟩ := p
    by_cases h : a = k
    · simpa [objDelete, h] using ih
    · simpa [objDelete, objGet, h] using ih

theorem objGet_objDelete_ne {V : Type u} (m : List (String × V)) (k k' : String)
    (h : k' ≠ k) : objGet (objDelete m k) k' = objGet m k' := by
  have hk : k ≠ k' := Ne.symm h
  induction m with
  | nil => rfl
  | cons p rest ih =>
    obtain ⟨a, b⟩ := p
    by_cases h2 : a = k
    · subst h2
      simp [objDelete, objGet, hk, ih]
    · by_cases h3 : a = k'
      · simp [objDelete, objGet, h2, h3, h]
      · simp [objDelete, objGet, h2, h3, ih]

theorem objSum_objSet {V : Type u} (m : List (String × V)) (k : String) (v : V) (f : V → Nat) :
    objSum (objSet m k v) f + (match objGet m k with | some w => f w | none => 0)
      = objSum m f + f v := by
  induction m with
  | nil => simp [objSum, objSet, objGet]
  | cons p rest ih =>
    obtain ⟨a, b⟩ := p
    by_cases h : a = k
    · subst h
      simp [objSum, objSet, objGet]
      omega
    · simp only [objSum, objSet, objGet, if_neg h, List.map_cons, List.sum_cons]
      simp only [objSum] at ih
      omega

theorem record_globalUsage (s : UsageState) (k : StagehandUsageKey) :
    (recordStagehandCall s k).globalUsage
      = objSet s.globalUsage k.operation
          (bumpStats (getOrCreateOperationStats s.globalUsage k.operation) k.toolName) := rfl

theorem record_perSessionUsage (s : UsageState) (k : StagehandUsageKey) :
    (recordStagehandCall s k).perSessionUsage
      = objSet s.perSessionUsage k.sessionId
          ⟨objSet ((objGet s.perSessionUsage k.sessionId).getD ⟨[]⟩).operations k.operation
            (bumpStats
              (getOrCreateOperationStats
                ((objGet s.perSessionUsage k.sessionId).getD ⟨[]⟩).operations k.operation)
              k.toolName)⟩ := rfl

theorem bumpStats_callCount (st : StagehandOperationStats) (t : String) :
    (bumpStats st t).callCount = st.callCount + 1 := rfl

theorem bumpStats_toolCallCounts (st : StagehandOperationStats) (t : String) :
    (bumpStats st t).toolCallCounts
      = objSet st.toolCallCounts t ((objGet st.toolCallCounts t).getD 0 + 1) := rfl

theorem getOrCreate_callCount (g : List (String × StagehandOperationStats)) (op : String) :
    (getOrCreateOperationStats g op).callCount = opCallCount g op := by
  cases h : objGet g op <;>
    simp [getOrCreateOperationStats, opCallCount, h, freshOperationStats]

theorem getOrCreate_toolCount (g : List (String × StagehandOperationStats)) (op t : String) :
    (objGet (getOrCreateOperationStats g op).toolCallCounts t).getD 0 = toolCallCount g op t := by
  cases h : objGet g op <;>
    simp [getOrCreateOperationStats, toolCallCount, h, freshOperationStats, objGet]

theorem opCallCount_objSet_self (g : List (String × StagehandOperationStats)) (op : String)
    (v : StagehandOperationStats) : opCallCount (objSet g op v) op = v.callCount := by
  unfold opCallCount
  rw [objGet_objSet_self]

theorem opCallCount_objSet_ne (g : List (String × StagehandOperationStats)) (op op' : String)
    (v : StagehandOperationStats) (h : op' ≠ op) :
    opCallCount (objSet g op v) op' = opCallCount g op' := by
  unfold opCallCount
  rw [objGet_objSet_ne _ _ _ _ h]

theorem record_opCallCount_self (s : UsageState) (k : StagehandUsageKey) :
    opCallCount (recordStagehandCall s k).globalUsage k.operation
      = opCallCount s.globalUsage k.operation + 1 := by
  have h : opCallCount (recordStagehandCall s k).globalUsage k.operation
      = (bumpStats (getOrCreateOperationStats s.globalUsage k.operation) k.toolName).callCount := by
    unfold opCallCount
    rw [record_globalUsage, objGet_objSet_self]
  rw [h, bumpStats_callCount, getOrCreate_callCount]

theorem record_toolCallCount_self (s : UsageState) (k : StagehandUsageKey) :
    toolCallCount (recordStagehandCall s k).globalUsage k.operation k.toolName
      = toolCallCount s.globalUsage k.operation k.toolName + 1 := by
  have h : toolCallCount (recordStagehandCall s k).globalUsage k.operation k.toolName
      = (objGet (bumpStats (getOrCreateOperationStats s.globalUsage k.operation)
          k.toolName).toolCallCounts k.toolName).getD 0 := by
    unfold toolCallCount
    rw [record_globalUsage, objGet_objSet_self]
  rw [h, bumpStats_toolCallCounts, objGet_objSet_self]
  simp [getOrCreate_toolCount]

theorem record_global_frame (s : UsageState) (k : StagehandUsageKey) (op : String)
    (h : op ≠ k.operation) :
    objGet (recordStagehandCall s k).globalUsage op = objGet s.globalUsage op := by
  rw [record_globalUsage]
  exact objGet_objSet_ne _ _ _ _ h

theorem record_toolCallCount_frame (s : UsageState) (k : StagehandUsageKey) (t : String)
    (h : t ≠ k.toolName) :
    toolCallCount (recordStagehandCall s k).globalUsage k.operation t
      = toolCallCount s.globalUsage k.operation t := by
  have h1 : toolCallCount (recordStagehandCall s k).globalUsage k.operation t
      = (objGet (bumpStats (getOrCreateOperationStats s.globalUsage k.operation)
          k.toolName).toolCallCounts t).getD 0 := by
    unfold toolCallCount
    rw [record_globalUsage, objGet_objSet_self]
  rw [h1, bumpStats_toolCallCounts, objGet_objSet_ne _ _ _ _ h, getOrCreate_toolCount]

theorem record_sessionOpStats_self (s : UsageState) (k : StagehandUsageKey) :
    sessionOpStats (recordStagehandCall s k).perSessionUsage k.sessionId k.operation
      = some (bumpStats
          (getOrCreateOperationStats
            ((objGet s.perSessionUsage k.sessionId).getD ⟨[]⟩).operations k.operation)
          k.toolName) := by
  unfold sessionOpStats
  rw [record_perSessionUsage, objGet_objSet_self]
  exact objGet_objSet_self _ _ _

theorem session_getOrCreate_callCount (ps : List (String × StagehandSessionUsage))
    (sid op : String) :
    (getOrCreateOperationStats ((objGet ps sid).getD ⟨[]⟩).operations op).callCount
      = sessionCallCount ps sid op := by
  cases hps : objGet ps sid with
  | none =>
    simp [sessionCallCount, sessionOpStats, hps, getOrCreateOperationStats, objGet,
      freshOperationStats]
  | some u =>
    cases h2 : objGet u.operations op <;>
      simp [sessionCallCount, sessionOpStats, hps, h2, getOrCreateOperationStats,
        freshOperationStats]

theorem session_getOrCreate_toolCount (ps : List (String × StagehandSessionUsage))
    (sid op t : String) :
    (objGet (getOrCreateOperationStats
        ((objGet ps sid).getD ⟨[]⟩).operations op).toolCallCounts t).getD 0
      = sessionToolCallCount ps sid op t := by
  cases hps : objGet ps sid with
  | none =>
    simp [sessionToolCallCount, sessionOpStats, hps, getOrCreateOperationStats, objGet,
      freshOperationStats]
  | some u =>
    cases h2 : objGet u.operations op <;>
      simp [sessionToolCallCount, sessionOpStats, hps, h2, getOrCreateOperationStats,
        freshOperationStats, objGet]

theorem record_sessionCallCount_self (s : UsageState) (k : StagehandUsageKey) :
    sessionCallCount (recordStagehandCall s k).perSessionUsage k.sessionId k.operation
      = sessionCallCount s.perSessionUsage k.sessionId k.operation + 1 := by
  have h : sessionCallCount (recordStagehandCall s k).perSessionUsage k.sessionId k.operation
      = (bumpStats
          (getOrCreateOperationStats
            ((objGet s.perSessionUsage k.sessionId).getD ⟨[]⟩).operations k.operation)
          k.toolName).callCount := by
    unfold sessionCallCount
    rw [record_sessionOpStats_self]
  rw [h, bumpStats_callCount, session_getOrCreate_callCount]

theorem record_sessionToolCallCount_self (s : UsageState) (k : StagehandUsageKey) :
    sessionToolCallCount (recordStagehandCall s k).perSessionUsage k.sessionId k.operation
        k.toolName
      = sessionToolCallCount s.perSessionUsage k.sessionId k.operation k.toolName + 1 := by
  have h : sessionToolCallCount (recordStagehandCall s k).perSessionUsage k.sessionId
        k.operation k.toolName
      = (objGet (bumpStats
          (getOrCreateOperationStats
            ((objGet s.perSessionUsage k.sessionId).getD ⟨[]⟩).operations k.operation)
          k.toolName).toolCallCounts k.toolName).getD 0 := by
    unfold sessionToolCallCount
    rw [record_sessionOpStats_self]
  rw [h, bumpStats_toolCallCounts, objGet_objSet_self]
  simp [session_getOrCreate_toolCount]

theorem record_perSession_frame (s : UsageState) (k : StagehandUsageKey) (sid : String)
    (h : sid ≠ k.sessionId) :
    objGet (recordStagehandCall s k).perSessionUsage sid = objGet s.perSessionUsage sid := by
  rw [record_perSessionUsage]
  exact objGet_objSet_ne _ _ _ _ h

theorem record_sessionOpStats_frame (s : UsageState) (k : StagehandUsageKey) (op : String)
    (h : op ≠ k.operation) :
    sessionOpStats (recordStagehandCall s k).perSessionUsage k.sessionId op
      = sessionOpStats s.perSessionUsage k.sessionId op := by
  unfold sessionOpStats
  rw [record_perSessionUsage, objGet_objSet_self]
  cases hps : objGet s.perSessionUsage k.sessionId with
  | none => simp [hps, objGet_objSet_ne _ _ _ _ h, objGet, Ne.symm h]
  | some u => simp [hps, objGet_objSet_ne _ _ _ _ h]

theorem record_sessionToolCallCount_frame (s : UsageState) (k : StagehandUsageKey) (t : String)
    (h : t ≠ k.toolName) :
    sessionToolCallCount (recordStagehandCall s k).perSessionUsage k.sessionId k.operation t
      = sessionToolCallCount s.perSessionUsage k.sessionId k.operation t := by
  have h1 : sessionToolCallCount (recordStagehandCall s k).perSessionUsage k.sessionId
        k.operation t
      = (objGet (bumpStats
          (getOrCreateOperationStats
            ((objGet s.perSessionUsage k.sessionId).getD ⟨[]⟩).operations k.operation)
          k.toolName).toolCallCounts t).getD 0 := by
    unfold sessionToolCallCount
    rw [record_sessionOpStats_self]
  rw [h1, bumpStats_toolCallCounts, objGet_objSet_ne _ _ _ _ h, session_getOrCreate_toolCount]

theorem perSessionCallSum_objSet (ps : List (String × StagehandSessionUsage)) (sid : String)
    (su' : StagehandSessionUsage) (op : String) :
    perSessionCallSum (objSet ps sid su') op
        + sessionOpCallCount ((objGet ps sid).getD ⟨[]⟩) op
      = perSessionCallSum ps op + sessionOpCallCount su' op := by
  have h := objSum_objSet ps sid su' (fun u => sessionOpCallCount u op)
  cases hps : objGet ps sid with
  | none =>
    rw [hps] at h
    simpa [perSessionCallSum, sessionOpCallCount, opCallCount, objGet] using h
  | some u =>
    rw [hps] at h
    simpa [perSessionCallSum] using h

theorem record_perSessionCallSum_self (s : UsageState) (k : StagehandUsageKey) :
    perSessionCallSum (recordStagehandCall s k).perSessionUsage k.operation
      = perSessionCallSum s.perSessionUsage k.operation + 1 := by
  rw [record_perSessionUsage]
  have key := perSessionCallSum_objSet s.perSessionUsage k.sessionId
      ⟨objSet ((objGet s.perSessionUsage k.sessionId).getD ⟨[]⟩).operations k.operation
        (bumpStats
          (getOrCreateOperationStats
            ((objGet s.perSessionUsage k.sessionId).getD ⟨[]⟩).operations k.operation)
          k.toolName)⟩
      k.operation
  have hsu : sessionOpCallCount
      (⟨objSet ((objGet s.perSessionUsage k.sessionId).getD ⟨[]⟩).operations k.operation
        (bumpStats
          (getOrCreateOperationStats
            ((objGet s.perSessionUsage k.sessionId).getD ⟨[]⟩).operations k.operation)
          k.toolName)⟩ : StagehandSessionUsage) k.operation
      = sessionOpCallCount ((objGet s.perSessionUsage k.sessionId).getD ⟨[]⟩) k.operation
          + 1 := by
    show opCallCount _ _ = _
    rw [opCallCount_objSet_self, bumpStats_callCount, getOrCreate_callCount]
    rfl
  rw [hsu] at key
  omega

theorem record_perSessionCallSum_ne (s : UsageState) (k : StagehandUsageKey) (op : String)
    (h : op ≠ k.operation) :
    perSessionCallSum (recordStagehandCall s k).perSessionUsage op
      = perSessionCallSum s.perSessionUsage op := by
  rw [record_perSessionUsage]
  have key := perSessionCallSum_objSet s.perSessionUsage k.sessionId
      ⟨objSet ((objGet s.perSessionUsage k.sessionId).getD ⟨[]⟩).operations k.operation
        (bumpStats
          (getOrCreateOperationStats
            ((objGet s.perSessionUsage k.sessionId).getD ⟨[]⟩).operations k.operation)
          k.toolName)⟩
      op
  have hsu : sessionOpCallCount
      (⟨objSet ((objGet s.perSessionUsage k.sessionId).getD ⟨[]⟩).operations k.operation
        (bumpStats
          (getOrCreateOperationStats
            ((objGet s.perSessionUsage k.sessionId).getD ⟨[]⟩).operations k.operation)
          k.toolName)⟩ : StagehandSessionUsage) op
      = sessionOpCallCount ((objGet s.perSessionUsage k.sessionId).getD ⟨[]⟩) op := by
    show opCallCount _ _ = _
    rw [opCallCount_objSet_ne _ _ _ _ h]
    rfl
  rw [hsu] at key
  omega

theorem record_opCallCount_ne (s : UsageState) (k : StagehandUsageKey) (op : String)
    (h : op ≠ k.operation) :
    opCallCount (recordStagehandCall s k).globalUsage op = opCallCount s.globalUsage op := by
  unfold opCallCount
  rw [record_globalUsage, objGet_objSet_ne _ _ _ _ h]

theorem usageInvariant_empty : usageInvariant emptyUsageState := by
  intro op
  rfl

theorem usageInvariant_record (s : UsageState) (k : StagehandUsageKey)
    (h : usageInvariant s) : usageInvariant (recordStagehandCall s k) := by
  intro op
  by_cases hop : op = k.operation
  · subst hop
    rw [record_opCallCount_self, record_perSessionCallSum_self, h k.operation]
  · rw [record_opCallCount_ne _ _ _ hop, record_perSessionCallSum_ne _ _ _ hop, h op]

theorem usageInvariant_recordAll (s : UsageState) (ks : List StagehandUsageKey)
    (h : usageInvariant s) : usageInvariant (recordAll s ks) := by
  induction ks generalizing s with
  | nil => exact h
  | cons k rest ih => exact ih (recordStagehandCall s k) (usageInvariant_record s k h)

/-- C1: for every finite sequence of recordStagehandCall invocations starting
from the empty usage state, every operation present in the resulting global
map has a callCount equal to the sum, over the session ids present in
perSession, of that session's callCount for the operation; sessions that
never recorded the operation are absent from the per-session record (or
lack a bucket for it) and hence contribute nothing to the sum. -/
theorem C1_global_callCount_is_session_sum (ks : List StagehandUsageKey) (op : String)
    (st : StagehandOperationStats)
    (h : objGet (recordAll emptyUsageState ks).globalUsage op = some st) :
    st.callCount = perSessionCallSum (recordAll emptyUsageState ks).perSessionUsage op := by
  have hinv := usageInvariant_recordAll emptyUsageState ks usageInvariant_empty op
  unfold opCallCount at hinv
  rw [h] at hinv
  exact hinv

theorem C1_witness :
    objGet (recordAll emptyUsageState
        [⟨"s1", "browserbase_stagehand_navigate", "navigate"⟩,
         ⟨"s2", "browserbase_stagehand_navigate", "navigate"⟩,
         ⟨"s1", "browserbase_stagehand_navigate", "navigate"⟩]).globalUsage "navigate"
      = some ⟨3, [("browserbase_stagehand_navigate", 3)]⟩
    ∧ (StagehandOperationStats.mk 3 [("browserbase_stagehand_navigate", 3)]).callCount
      = perSessionCallSum (recordAll emptyUsageState
          [⟨"s1", "browserbase_stagehand_navigate", "navigate"⟩,
           ⟨"s2", "browserbase_stagehand_navigate", "navigate"⟩,
           ⟨"s1", "browserbase_stagehand_navigate", "navigate"⟩]).perSessionUsage "navigate" :=
  ⟨by decide,
   C1_global_callCount_is_session_sum
     [⟨"s1", "browserbase_stagehand_navigate", "navigate"⟩,
      ⟨"s2", "browserbase_stagehand_navigate", "navigate"⟩,
      ⟨"s1", "browserbase_stagehand_navigate", "navigate"⟩]
     "navigate" ⟨3, [("browserbase_stagehand_navigate", 3)]⟩ (by decide)⟩

/-- C8: resetting the usage meter and then immediately taking a snapshot of
everything yields an empty global map and an empty perSession map, both
through getUsageSnapshot directly and through the usage tool at scope
"all". -/
theorem C8_reset_then_snapshot_empty (s : UsageState) :
    getUsageSnapshot (resetUsage s) = ⟨[], []⟩
    ∧ (handleUsage (resetUsage s) (some .allScope) none false).1 = ⟨some [], some []⟩ :=
  ⟨rfl, rfl⟩

/-- C9: one recordStagehandCall invocation increments exactly four counters
by one — the global bucket's callCount and its toolCallCounts entry for the
tool name, and the session bucket's callCount and its toolCallCounts entry —
creating the buckets when absent, while every bucket of another operation,
every other session's entry, and every other tool-name counter is left
unchanged (so no counter ever decreases). -/
theorem C9_record_frame (s : UsageState) (k : StagehandUsageKey) :
    opCallCount (recordStagehandCall s k).globalUsage k.operation
        = opCallCount s.globalUsage k.operation + 1
    ∧ toolCallCount (recordStagehandCall s k).globalUsage k.operation k.toolName
        = toolCallCount s.globalUsage k.operation k.toolName + 1
    ∧ sessionCallCount (recordStagehandCall s k).perSessionUsage k.sessionId k.operation
        = sessionCallCount s.perSessionUsage k.sessionId k.operation + 1
    ∧ sessionToolCallCount (recordStagehandCall s k).perSessionUsage k.sessionId k.operation
          k.toolName
        = sessionToolCallCount s.perSessionUsage k.sessionId k.operation k.toolName + 1
    ∧ (∀ op, op ≠ k.operation →
        objGet (recordStagehandCall s k).globalUsage op = objGet s.globalUsage op)
    ∧ (∀ t, t ≠ k.toolName →
        toolCallCount (recordStagehandCall s k).globalUsage k.operation t
          = toolCallCount s.globalUsage k.operation t)
    ∧ (∀ sid, sid ≠ k.sessionId →
        objGet (recordStagehandCall s k).perSessionUsage sid = objGet s.perSessionUsage sid)
    ∧ (∀ op, op ≠ k.operation →
        sessionOpStats (recordStagehandCall s k).perSessionUsage k.sessionId op
          = sessionOpStats s.perSessionUsage k.sessionId op)
    ∧ (∀ t, t ≠ k.toolName →
        sessionToolCallCount (recordStagehandCall s k).perSessionUsage k.sessionId k.operation t
          = sessionToolCallCount s.perSessionUsage k.sessionId k.operation t) :=
  ⟨record_opCallCount_self s k,
   record_toolCallCount_self s k,
   record_sessionCallCount_self s k,
   record_sessionToolCallCount_self s k,
   fun op hop => record_global_frame s k op hop,
   fun t ht => record_toolCallCount_frame s k t ht,
   fun sid hsid => record_perSession_frame s k sid hsid,
   fun op hop => record_sessionOpStats_frame s k op hop,
   fun t ht => record_sessionToolCallCount_frame s k t ht⟩

theorem C9_witness :
    opCallCount (recordStagehandCall emptyUsageState
        ⟨"s1", "browserbase_stagehand_act", "act"⟩).globalUsage "act"
      = opCallCount emptyUsageState.globalUsage "act" + 1
    ∧ objGet (recordStagehandCall emptyUsageState
        ⟨"s1", "browserbase_stagehand_act", "act"⟩).globalUsage "navigate"
      = objGet emptyUsageState.globalUsage "navigate" := by
  obtain ⟨h1, h2, h3, h4, h5, h6, h7, h8, h9⟩ :=
    C9_record_frame emptyUsageState ⟨"s1", "browserbase_stagehand_act", "act"⟩
  exact ⟨h1, h5 "navigate" (by decide)⟩

/-- C4 as stated is false on the code: `recordStagehandCall` (second
variant) never adds the supplied metrics' numeric fields to any bucket —
the buckets hold only callCount and toolCallCounts, and the counter state
after recording with a metrics object equals the state after recording with
no metrics at all (and equals the state for any other metrics value); the
metrics are only emitted as a log line. -/
theorem C4_counterexample :
    (recordStagehandCallWithMetrics emptyUsageState
        ⟨"s1", "browserbase_stagehand_act", "act"⟩
        (some (⟨512, 64⟩ : UsageMetrics))).1
      = (recordStagehandCallWithMetrics emptyUsageState
          ⟨"s1", "browserbase_stagehand_act", "act"⟩
          (none : Option UsageMetrics)).1
    ∧ (recordStagehandCallWithMetrics emptyUsageState
        ⟨"s1", "browserbase_stagehand_act", "act"⟩
        (some (⟨512, 64⟩ : UsageMetrics))).1
      = (recordStagehandCallWithMetrics emptyUsageState
          ⟨"s1", "browserbase_stagehand_act", "act"⟩
          (some (⟨999999, 888888⟩ : UsageMetrics))).1
    ∧ objGet (recordStagehandCallWithMetrics emptyUsageState
        ⟨"s1", "browserbase_stagehand_act", "act"⟩
        (some (⟨512, 64⟩ : UsageMetrics))).1.globalUsage "act"
      = some ⟨1, [("browserbase_stagehand_act", 1)]⟩ :=
  ⟨rfl, rfl, by decide⟩

/-- C4 amended: recordStagehandCall (second variant) always increments
callCount and toolCallCounts[toolName] in both the global and the session
bucket for the operation; the optional metrics object does not touch the
counter state at all — the state transition is the same as the metrics-free
variant — and when the handle and its metrics are present, exactly one
structured log line carrying the key and the metrics is emitted, none
otherwise. -/
theorem C4_record_with_metrics {M : Type u} (s : UsageState) (k : StagehandUsageKey)
    (metrics : Option M) :
    (recordStagehandCallWithMetrics s k metrics).1 = recordStagehandCall s k
    ∧ opCallCount (recordStagehandCallWithMetrics s k metrics).1.globalUsage k.operation
        = opCallCount s.globalUsage k.operation + 1
    ∧ toolCallCount (recordStagehandCallWithMetrics s k metrics).1.globalUsage k.operation
          k.toolName
        = toolCallCount s.globalUsage k.operation k.toolName + 1
    ∧ sessionCallCount (recordStagehandCallWithMetrics s k metrics).1.perSessionUsage
          k.sessionId k.operation
        = sessionCallCount s.perSessionUsage k.sessionId k.operation + 1
    ∧ sessionToolCallCount (recordStagehandCallWithMetrics s k metrics).1.perSessionUsage
          k.sessionId k.operation k.toolName
        = sessionToolCallCount s.perSessionUsage k.sessionId k.operation k.toolName + 1
    ∧ (recordStagehandCallWithMetrics s k metrics).2
        = logStagehandMetrics metrics ⟨k.sessionId, k.toolName, k.operation⟩ :=
  ⟨rfl,
   record_opCallCount_self s k,
   record_toolCallCount_self s k,
   record_sessionCallCount_self s k,
   record_sessionToolCallCount_self s k,
   rfl⟩

/-- C3 is a code bug: the tool's input schema documents that `reset: true`
resets the counters after returning the snapshot, and the spec requires the
snapshot to be taken first; but `JSON.stringify(result)` runs after
`resetUsage()`, and the snapshot aliases the live records, so the rendered
output at scope "all" is empty rather than the pre-reset counters. This
theorem evaluates the model at the failing input: one recorded call, then
the usage tool at scope "all" with reset — the state before the call is
non-empty, yet the rendered output is empty (and the meter state ends
empty). -/
theorem C3_code_bug_eval :
    recordStagehandCall emptyUsageState
        ⟨"s1", "browserbase_stagehand_navigate", "navigate"⟩ ≠ emptyUsageState
    ∧ (handleUsage
        (recordStagehandCall emptyUsageState
          ⟨"s1", "browserbase_stagehand_navigate", "navigate"⟩)
        (some .allScope) none true).1 = ⟨some [], some []⟩
    ∧ (handleUsage
        (recordStagehandCall emptyUsageState
          ⟨"s1", "browserbase_stagehand_navigate", "navigate"⟩)
        (some .allScope) none true).2 = emptyUsageState := by
  refine ⟨by decide, rfl, rfl⟩

/-- C10: querying the usage tool at scope "perSession" or "all" with a
session id that is absent from the per-session record returns
`{ operations: {} }` for that session id (never an error or not-found
failure — the handler is total), and no entry for that session id is
inserted into the meter state. -/
theorem C10_missing_session_empty_operations (s : UsageState) (sid : String) (reset : Bool)
    (scope : UsageScope) (habs : objGet s.perSessionUsage sid = none)
    (hscope : scope = .perSessionScope ∨ scope = .allScope) :
    (handleUsage s (some scope) (some sid) reset).1.perSession = some [(sid, ⟨[]⟩)]
    ∧ objGet (handleUsage s (some scope) (some sid) reset).2.perSessionUsage sid = none := by
  rcases hscope with h | h <;> subst h <;> cases reset <;>
    simp [handleUsage, usageResultView, renderUsageResult, habs, resetUsage, objGet]

theorem C10_witness :
    (handleUsage
        (recordStagehandCall emptyUsageState ⟨"s1", "browserbase_stagehand_navigate", "navigate"⟩)
        (some .allScope) (some "missing") false).1.perSession = some [("missing", ⟨[]⟩)]
    ∧ objGet (handleUsage
        (recordStagehandCall emptyUsageState ⟨"s1", "browserbase_stagehand_navigate", "navigate"⟩)
        (some .allScope) (some "missing") false).2.perSessionUsage "missing" = none :=
  C10_missing_session_empty_operations _ "missing" false .allScope (by decide) (Or.inr rfl)

/-- C2 as stated is false on the code: with a live session whose cleanup
raises, handleCloseSession rethrows the cleanup error as a tool failure
(its message does note that the session context was reset to default)
instead of returning a success or informational result. -/
theorem C2_counterexample :
    handleCloseSession (some "s1") "default-1" (.ok (some ⟨"bb-session-1", true⟩))
        (.error "cleanup exploded") (.ok none)
      = .error "cleanup exploded" := rfl

/-- C2 amended: the close action returns a success result whenever cleanup
succeeded (even when the subsequent replay fetch raised), returns the
informational result when no session (or no stagehand handle) was found,
but throws the caught error when getSession or cleanupSession raised with a
non-empty message and cleanup never succeeded; the thrown message is the
cleanup error (whose text notes the context reset). -/
theorem C2_close_resolution (previousSessionId : Option String)
    (defaultSessionId : String) (sess : CloseableSession)
    (cleanupResult : Except String Unit)
    (fetchResult : Except String (Option TokenUsageTotals)) :
    (sess.hasStagehand = true →
      handleCloseSession previousSessionId defaultSessionId (.ok (some sess)) (.ok ())
          fetchResult
        = .ok (.closedSuccessfully previousSessionId
            (decide (previousSessionId ≠ some defaultSessionId))))
    ∧ (handleCloseSession previousSessionId defaultSessionId (.ok none) cleanupResult
          fetchResult
        = .ok (.noActiveSession previousSessionId))
    ∧ (sess.hasStagehand = false →
      handleCloseSession previousSessionId defaultSessionId (.ok (some sess)) cleanupResult
          fetchResult
        = .ok (.noActiveSession previousSessionId))
    ∧ (∀ e, e ≠ "" → sess.hasStagehand = true →
      handleCloseSession previousSessionId defaultSessionId (.ok (some sess)) (.error e)
          fetchResult
        = .error e)
    ∧ (∀ e, e ≠ "" →
      handleCloseSession previousSessionId defaultSessionId (.error e) cleanupResult
          fetchResult
        = .error e) := by
  refine ⟨?_, ?_, ?_, ?_, ?_⟩
  · intro hs
    cases fetchResult <;> simp [handleCloseSession, hs]
  · simp [handleCloseSession]
  · intro hs
    simp [handleCloseSession, hs]
  · intro e he hs
    simp [handleCloseSession, hs, he]
  · intro e he
    simp [handleCloseSession, he]

theorem C2_witness :
    handleCloseSession (some "s1") "def-0" (.ok (some ⟨"bb-1", true⟩)) (.ok ())
        (.error "network down")
      = .ok (.closedSuccessfully (some "s1") true) := by
  have h := (C2_close_resolution (some "s1") "def-0" ⟨"bb-1", true⟩ (.ok ())
      (.error "network down")).1 rfl
  simpa using h

theorem foldl_replayActionStep (acts : List ReplayAction) (acc : TokenUsageTotals) :
    acts.foldl replayActionStep acc
      = ⟨acc.totalInputTokens
            + ((acts.filterMap ReplayAction.tokenUsage).map ReplayTokenUsage.inputTokens).sum,
         acc.totalOutputTokens
            + ((acts.filterMap ReplayAction.tokenUsage).map ReplayTokenUsage.outputTokens).sum,
         acc.totalTimeMs
            + ((acts.filterMap ReplayAction.tokenUsage).filterMap ReplayTokenUsage.timeMs).sum⟩ := by
  induction acts generalizing acc with
  | nil =>
    obtain ⟨a, b, c⟩ := acc
    simp
  | cons act rest ih =>
    obtain ⟨tu⟩ := act
    cases tu with
    | none =>
      simp only [List.foldl_cons, replayActionStep, List.filterMap_cons]
      exact ih acc
    | some u =>
      obtain ⟨uin, uout, utm⟩ := u
      cases utm with
      | none =>
        simp [replayActionStep, ih, List.filterMap_cons, add_assoc]
      | some t =>
        simp [replayActionStep, ih, List.filterMap_cons, add_assoc]

theorem sumReplayTotals_spec (data : StagehandReplayData) :
    sumReplayTotals data
      = ⟨((replayTokenUsages data).map ReplayTokenUsage.inputTokens).sum,
         ((replayTokenUsages data).map ReplayTokenUsage.outputTokens).sum,
         ((replayTokenUsages data).filterMap ReplayTokenUsage.timeMs).sum⟩ := by
  obtain ⟨pages⟩ := data
  have main : ∀ (ps : List ReplayPage) (acc : TokenUsageTotals),
      ps.foldl (fun acc page => page.actions.foldl replayActionStep acc) acc
        = ⟨acc.totalInputTokens
              + ((((ps.map ReplayPage.actions).flatten).filterMap
                  ReplayAction.tokenUsage).map ReplayTokenUsage.inputTokens).sum,
           acc.totalOutputTokens
              + ((((ps.map ReplayPage.actions).flatten).filterMap
                  ReplayAction.tokenUsage).map ReplayTokenUsage.outputTokens).sum,
           acc.totalTimeMs
              + ((((ps.map ReplayPage.actions).flatten).filterMap
                  ReplayAction.tokenUsage).filterMap ReplayTokenUsage.timeMs).sum⟩ := by
    intro ps
    induction ps with
    | nil =>
      intro acc
      obtain ⟨a, b, c⟩ := acc
      simp
    | cons p rest ih =>
      intro acc
      simp only [List.foldl_cons]
      rw [foldl_replayActionStep, ih]
      simp [List.filterMap_append, List.map_append, List.sum_append, add_assoc]
  have h := main pages ⟨0, 0, 0⟩
  simpa [sumReplayTotals, replayActions, replayTokenUsages] using h

/-- C6 as stated is false on the code: the `fetch` await of
fetchStagehandTokenUsageSummary sits outside its try/catch, so a network
failure of the fetch itself propagates as an exception out of the fetcher
instead of yielding the "no data" result. -/
theorem C6_counterexample :
    fetchStagehandTokenUsageSummary (R := Unit) true (.error "network unreachable")
        (fun _ => .ok ⟨[]⟩)
      = .error "network unreachable" := rfl

/-- C6 amended: the fetcher's totals sum `inputTokens` and `outputTokens`
over every action carrying a tokenUsage record across all pages, and
`timeMs` only where present; missing keys and any parse or field-access
failure yield the "no data" result; a network failure of the fetch call
itself propagates out of the fetcher, but handleCloseSession catches it
only after cleanup already succeeded, so it never blocks or fails session
cleanup (the close still returns its success result). -/
theorem C6_fetch_best_effort {R : Type u}
    (fetchResult : Except String R)
    (parseReplay : R → Except String StagehandReplayData) :
    (∀ data : StagehandReplayData,
      sumReplayTotals data
        = ⟨((replayTokenUsages data).map ReplayTokenUsage.inputTokens).sum,
           ((replayTokenUsages data).map ReplayTokenUsage.outputTokens).sum,
           ((replayTokenUsages data).filterMap ReplayTokenUsage.timeMs).sum⟩)
    ∧ fetchStagehandTokenUsageSummary false fetchResult parseReplay = .ok none
    ∧ (∀ (raw : R) (e : String), parseReplay raw = .error e →
        fetchStagehandTokenUsageSummary true (.ok raw) parseReplay = .ok none)
    ∧ (∀ (raw : R) (data : StagehandReplayData), parseReplay raw = .ok data →
        fetchStagehandTokenUsageSummary true (.ok raw) parseReplay
          = .ok (some (sumReplayTotals data)))
    ∧ (∀ (previousSessionId : Option String) (defaultSessionId : String)
        (sess : CloseableSession) (e : String), sess.hasStagehand = true →
        handleCloseSession previousSessionId defaultSessionId (.ok (some sess)) (.ok ())
            (.error e)
          = .ok (.closedSuccessfully previousSessionId
              (decide (previousSessionId ≠ some defaultSessionId)))) := by
  refine ⟨sumReplayTotals_spec, rfl, ?_, ?_, ?_⟩
  · intro raw e h
    simp [fetchStagehandTokenUsageSummary, h]
  · intro raw data h
    simp [fetchStagehandTokenUsageSummary, h]
  · intro prev defId sess e hs
    simp [handleCloseSession, hs]

theorem C6_witness :
    fetchStagehandTokenUsageSummary true (Except.ok ())
        (fun _ : Unit => Except.ok demoReplayData)
      = .ok (some ⟨8, 10, 10⟩) := by
  have h := (C6_fetch_best_effort (Except.ok ())
      (fun _ : Unit => Except.ok demoReplayData)).2.2.2.1 () demoReplayData rfl
  have hsum : sumReplayTotals demoReplayData = ⟨8, 10, 10⟩ := by decide
  rw [h, hsum]

theorem objGet_foldl_objDelete (names : List String) (m : List (String × String)) (n : String) :
    objGet (names.foldl (fun acc x => objDelete acc x) m) n
      = if n ∈ names then none else objGet m n := by
  induction names generalizing m with
  | nil => simp
  | cons a rest ih =>
    simp only [List.foldl_cons]
    rw [ih]
    by_cases h : n ∈ rest
    · simp [h]
    · by_cases h2 : n = a
      · subst h2
        simp [h, objGet_objDelete_self]
      · simp [h, h2, objGet_objDelete_ne _ _ _ h2]

/-- C7: assuming every stored screenshot name is owned by at most one
session in the index, after clearScreenshotsForSession(sessionId) no
screenshot registered under that session id remains in the screenshots map,
the per-session name index holds no entry for that session id, and both the
index entries and the screenshots owned by every other session are
untouched. -/
theorem C7_clear_purges_session (st : ResourceStoreState) (sid : String)
    (huniq : uniquelyOwned st.sessionIdToScreenshotNames) :
    (∀ names, objGet st.sessionIdToScreenshotNames sid = some names →
      ∀ n ∈ names, objGet (clearScreenshotsForSession st sid).screenshots n = none)
    ∧ objGet (clearScreenshotsForSession st sid).sessionIdToScreenshotNames sid = none
    ∧ (∀ s, s ≠ sid →
        objGet (clearScreenshotsForSession st sid).sessionIdToScreenshotNames s
          = objGet st.sessionIdToScreenshotNames s)
    ∧ (∀ s names, s ≠ sid → objGet st.sessionIdToScreenshotNames s = some names →
        ∀ n ∈ names, objGet (clearScreenshotsForSession st sid).screenshots n
          = objGet st.screenshots n) := by
  cases hidx : objGet st.sessionIdToScreenshotNames sid with
  | none =>
    refine ⟨?_, ?_, ?_, ?_⟩
    · intro names hnames
      cases hnames
    · simp [clearScreenshotsForSession, hidx]
    · intro s hs
      simp [clearScreenshotsForSession, hidx]
    · intro s names hs hnames n hn
      simp [clearScreenshotsForSession, hidx]
  | some names0 =>
    have hclear : clearScreenshotsForSession st sid
        = ⟨names0.foldl (fun m n => objDelete m n) st.screenshots,
           objDelete st.sessionIdToScreenshotNames sid⟩ := by
      simp [clearScreenshotsForSession, hidx]
    refine ⟨?_, ?_, ?_, ?_⟩
    · intro names hnames n hn
      injection hnames with he
      subst he
      rw [hclear]
      show objGet (names0.foldl (fun m n => objDelete m n) st.screenshots) n = none
      rw [objGet_foldl_objDelete]
      simp [hn]
    · rw [hclear]
      exact objGet_objDelete_self _ _
    · intro s hs
      rw [hclear]
      exact objGet_objDelete_ne _ _ _ hs
    · intro s names hs hnames n hn
      have hnot : n ∉ names0 :=
        fun hmem => hs (huniq n s names sid names0 hnames hidx hn hmem)
      rw [hclear]
      show objGet (names0.foldl (fun m n => objDelete m n) st.screenshots) n
        = objGet st.screenshots n
      rw [objGet_foldl_objDelete]
      simp [hnot]

theorem uniquelyOwned_pair (s1 s2 : String) (l1 l2 : List String)
    (hdisj : ∀ n, n ∈ l1 → n ∈ l2 → False) :
    uniquelyOwned [(s1, l1), (s2, l2)] := by
  intro n a la b lb ha hb hna hnb
  simp only [objGet] at ha hb
  by_cases e1 : s1 = a
  · rw [if_pos e1] at ha
    injection ha with ha'
    subst ha'
    by_cases e2 : s1 = b
    · exact e1.symm.trans e2
    · rw [if_neg e2] at hb
      by_cases e3 : s2 = b
      · rw [if_pos e3] at hb
        injection hb with hb'
        subst hb'
        exact (hdisj n hna hnb).elim
      · rw [if_neg e3] at hb
        cases hb
  · rw [if_neg e1] at ha
    by_cases e3 : s2 = a
    · rw [if_pos e3] at ha
      injection ha with ha'
      subst ha'
      by_cases e2 : s1 = b
      · rw [if_pos e2] at hb
        injection hb with hb'
        subst hb'
        exact (hdisj n hnb hna).elim
      · rw [if_neg e2] at hb
        by_cases e4 : s2 = b
        · exact e3.symm.trans e4
        · rw [if_neg e4] at hb
          cases hb
    · rw [if_neg e3] at ha
      cases ha

theorem C7_witness :
    objGet (clearScreenshotsForSession demoStore "s1").screenshots "shot-a" = none
    ∧ objGet (clearScreenshotsForSession demoStore "s1").sessionIdToScreenshotNames "s1" = none
    ∧ objGet (clearScreenshotsForSession demoStore "s1").screenshots "shot-b"
        = objGet demoStore.screenshots "shot-b" := by
  have hidxlit : demoStore.sessionIdToScreenshotNames
      = [("s1", ["shot-a"]), ("s2", ["shot-b"])] := by decide
  have huniq : uniquelyOwned demoStore.sessionIdToScreenshotNames := by
    rw [hidxlit]
    refine uniquelyOwned_pair "s1" "s2" ["shot-a"] ["shot-b"] ?_
    intro n h1 h2
    simp only [List.mem_singleton] at h1 h2
    rw [h1] at h2
    exact absurd h2 (by decide)
  obtain ⟨h1, h2, h3, h4⟩ := C7_clear_purges_session demoStore "s1" huniq
  exact ⟨h1 ["shot-a"] (by decide) "shot-a" (by decide), h2,
    h4 "s2" ["shot-b"] (by decide) (by decide) "shot-b" (by decide)⟩


theorem retryLoop_of_ok {E : Type u} (outcomes : Nat → Except E Unit) (a d rem : Nat)
    (u : Unit) (h : outcomes a = .ok u) :
    retryLoop outcomes a d rem = ⟨.ok (), a + 1, []⟩ := by
  cases rem <;> · unfold retryLoop; rw [h]

theorem retryLoop_of_error_zero {E : Type u} (outcomes : Nat → Except E Unit) (a d : Nat)
    (e : E) (h : outcomes a = .error e) :
    retryLoop outcomes a d 0 = ⟨.error e, a + 1, []⟩ := by
  unfold retryLoop
  rw [h]

theorem retryLoop_of_error_succ {E : Type u} (outcomes : Nat → Except E Unit) (a d r : Nat)
    (e : E) (h : outcomes a = .error e) :
    retryLoop outcomes a d (r + 1)
      = ⟨(retryLoop outcomes (a + 1) (delayStep d) r).result,
         (retryLoop outcomes (a + 1) (delayStep d) r).attempts,
         d :: (retryLoop outcomes (a + 1) (delayStep d) r).sleeps⟩ := by
  conv_lhs => unfold retryLoop
  rw [h]

theorem retryLoop_attempts_lower {E : Type u} (outcomes : Nat → Except E Unit)
    (rem a d : Nat) : a + 1 ≤ (retryLoop outcomes a d rem).attempts := by
  induction rem generalizing a d with
  | zero =>
    cases hout : outcomes a with
    | ok u => rw [retryLoop_of_ok outcomes a d 0 u hout]
    | error e => rw [retryLoop_of_error_zero outcomes a d e hout]
  | succ r ih =>
    cases hout : outcomes a with
    | ok u => rw [retryLoop_of_ok outcomes a d (r + 1) u hout]
    | error e =>
      rw [retryLoop_of_error_succ outcomes a d r e hout]
      have h := ih (a + 1) (delayStep d)
      simp only []
      omega

theorem retryLoop_attempts_upper {E : Type u} (outcomes : Nat → Except E Unit)
    (rem a d : Nat) : (retryLoop outcomes a d rem).attempts ≤ a + rem + 1 := by
  induction rem generalizing a d with
  | zero =>
    cases hout : outcomes a with
    | ok u => rw [retryLoop_of_ok outcomes a d 0 u hout]
    | error e => rw [retryLoop_of_error_zero outcomes a d e hout]
  | succ r ih =>
    cases hout : outcomes a with
    | ok u =>
      rw [retryLoop_of_ok outcomes a d (r + 1) u hout]
      simp only []
      omega
    | error e =>
      rw [retryLoop_of_error_succ outcomes a d r e hout]
      have h := ih (a + 1) (delayStep d)
      simp only []
      omega

theorem delaySeq_shift (d0 : Nat) (j : Nat) :
    delaySeq d0 (j + 1) = delaySeq (delayStep d0) j := by
  induction j with
  | zero => rfl
  | succ j ih => exact congrArg delayStep ih

theorem retryLoop_sleeps {E : Type u} (outcomes : Nat → Except E Unit) (rem a d : Nat) :
    (retryLoop outcomes a d rem).sleeps
      = (List.range ((retryLoop outcomes a d rem).attempts - 1 - a)).map (delaySeq d) := by
  induction rem generalizing a d with
  | zero =>
    cases hout : outcomes a with
    | ok u =>
      rw [retryLoop_of_ok outcomes a d 0 u hout]
      have h0 : a + 1 - 1 - a = 0 := by omega
      simp [h0]
    | error e =>
      rw [retryLoop_of_error_zero outcomes a d e hout]
      have h0 : a + 1 - 1 - a = 0 := by omega
      simp [h0]
  | succ r ih =>
    cases hout : outcomes a with
    | ok u =>
      rw [retryLoop_of_ok outcomes a d (r + 1) u hout]
      have h0 : a + 1 - 1 - a = 0 := by omega
      simp [h0]
    | error e =>
      have hge := retryLoop_attempts_lower outcomes r (a + 1) (delayStep d)
      have hk : (retryLoop outcomes (a + 1) (delayStep d) r).attempts - 1 - a
          = ((retryLoop outcomes (a + 1) (delayStep d) r).attempts - 1 - (a + 1)) + 1 := by
        omega
      rw [retryLoop_of_error_succ outcomes a d r e hout]
      simp only []
      rw [hk, List.range_succ_eq_map, List.map_cons, List.map_map]
      congr 1
      rw [ih (a + 1) (delayStep d)]
      apply List.map_congr_left
      intro j _
      exact (delaySeq_shift d j).symm

theorem retryLoop_all_fail {E : Type u} (outcomes : Nat → Except E Unit) (rem a d : Nat)
    (h : ∀ j, a ≤ j → j ≤ a + rem → outcomes j ≠ .ok ()) :
    (retryLoop outcomes a d rem).result = outcomes (a + rem)
    ∧ (retryLoop outcomes a d rem).attempts = a + rem + 1 := by
  induction rem generalizing a d with
  | zero =>
    cases hout : outcomes a with
    | ok u =>
      cases u
      exact absurd hout (h a le_rfl (by omega))
    | error e =>
      rw [retryLoop_of_error_zero outcomes a d e hout]
      exact ⟨hout.symm, rfl⟩
  | succ r ih =>
    cases hout : outcomes a with
    | ok u =>
      cases u
      exact absurd hout (h a le_rfl (by omega))
    | error e =>
      have hrec := ih (a + 1) (delayStep d) (fun j hj1 hj2 => h j (by omega) (by omega))
      rw [retryLoop_of_error_succ outcomes a d r e hout]
      simp only []
      constructor
      · rw [hrec.1]
        congr 1
        omega
      · rw [hrec.2]
        omega

theorem retryLoop_first_success {E : Type u} (outcomes : Nat → Except E Unit) (rem a d i : Nat)
    (hi : a ≤ i) (hle : i ≤ a + rem) (hok : outcomes i = .ok ())
    (hmin : ∀ j, a ≤ j → j < i → outcomes j ≠ .ok ()) :
    (retryLoop outcomes a d rem).result = .ok ()
    ∧ (retryLoop outcomes a d rem).attempts = i + 1 := by
  induction rem generalizing a d with
  | zero =>
    have hia : i = a := by omega
    subst hia
    rw [retryLoop_of_ok outcomes i d 0 () hok]
    exact ⟨rfl, rfl⟩
  | succ r ih =>
    by_cases hia : i = a
    · subst hia
      rw [retryLoop_of_ok outcomes i d (r + 1) () hok]
      exact ⟨rfl, rfl⟩
    · have hnot : outcomes a ≠ .ok () := hmin a le_rfl (by omega)
      cases hout : outcomes a with
      | ok u =>
        cases u
        exact absurd hout hnot
      | error e =>
        have hrec := ih (a + 1) (delayStep d) (by omega) (by omega)
          (fun j hj1 hj2 => hmin j (by omega) hj2)
        rw [retryLoop_of_error_succ outcomes a d r e hout]
        exact ⟨hrec.1, hrec.2⟩

/-- C5: retryClearScreenshotsForSession performs at most retries+1 attempts
(defaults: retries 3, initialDelayMs 50); the backoff sleeps between
attempts follow the delay sequence that starts at initialDelayMs and
doubles after each failure with a 1000 ms cap; it returns normally exactly
when some attempt within the budget succeeds — stopping at the first
success — and when every attempt fails it rethrows the last attempt's
error after retries+1 attempts. The attempts are abstracted as an outcome
oracle over attempt indices. -/
theorem C5_retry_policy {E : Type u} (outcomes : Nat → Except E Unit)
    (retries initialDelayMs : Option Nat) :
    (retryClearScreenshotsForSession outcomes retries initialDelayMs).attempts
        ≤ retries.getD 3 + 1
    ∧ (retryClearScreenshotsForSession outcomes retries initialDelayMs).sleeps
        = (List.range
            ((retryClearScreenshotsForSession outcomes retries initialDelayMs).attempts - 1)).map
            (delaySeq (initialDelayMs.getD 50))
    ∧ ((retryClearScreenshotsForSession outcomes retries initialDelayMs).result = .ok ()
        ↔ ∃ i, i ≤ retries.getD 3 ∧ outcomes i = .ok ())
    ∧ (∀ i, i ≤ retries.getD 3 → outcomes i = .ok () →
        (∀ j, j < i → outcomes j ≠ .ok ()) →
        (retryClearScreenshotsForSession outcomes retries initialDelayMs).result = .ok ()
        ∧ (retryClearScreenshotsForSession outcomes retries initialDelayMs).attempts = i + 1)
    ∧ ((∀ j, j ≤ retries.getD 3 → outcomes j ≠ .ok ()) →
        (retryClearScreenshotsForSession outcomes retries initialDelayMs).result
            = outcomes (retries.getD 3)
        ∧ (retryClearScreenshotsForSession outcomes retries initialDelayMs).attempts
            = retries.getD 3 + 1) := by
  unfold retryClearScreenshotsForSession
  refine ⟨?_, ?_, ?_, ?_, ?_⟩
  · have h := retryLoop_attempts_upper outcomes (retries.getD 3) 0 (initialDelayMs.getD 50)
    omega
  · have h := retryLoop_sleeps outcomes (retries.getD 3) 0 (initialDelayMs.getD 50)
    simpa using h
  · constructor
    · intro hres
      by_contra hnone
      push_neg at hnone
      have hall := retryLoop_all_fail outcomes (retries.getD 3) 0 (initialDelayMs.getD 50)
        (fun j hj1 hj2 => hnone j (by omega))
      rw [hall.1] at hres
      exact hnone (0 + retries.getD 3) (by omega) hres
    · rintro ⟨i, hile, hiok⟩
      classical
      have hex : ∃ m, outcomes m = Except.ok () := ⟨i, hiok⟩
      have hmok := Nat.find_spec hex
      have hmle : Nat.find hex ≤ retries.getD 3 := le_trans (Nat.find_min' hex hiok) hile
      have hfs := retryLoop_first_success outcomes (retries.getD 3) 0
        (initialDelayMs.getD 50) (Nat.find hex) (Nat.zero_le _) (by omega) hmok
        (fun j hj1 hj2 => Nat.find_min hex hj2)
      exact hfs.1
  · intro i hile hiok hmin
    exact retryLoop_first_success outcomes (retries.getD 3) 0 (initialDelayMs.getD 50) i
      (Nat.zero_le _) (by omega) hiok (fun j hj1 hj2 => hmin j hj2)
  · intro hall
    have h := retryLoop_all_fail outcomes (retries.getD 3) 0 (initialDelayMs.getD 50)
      (fun j hj1 hj2 => hall j (by omega))
    constructor
    · rw [h.1]
      congr 1
      omega
    · rw [h.2]
      omega

theorem C5_witness :
    (retryClearScreenshotsForSession failTwiceOutcomes none none).result = .ok ()
    ∧ (retryClearScreenshotsForSession failTwiceOutcomes none none).attempts = 3
    ∧ (retryClearScreenshotsForSession failTwiceOutcomes none none).sleeps = [50, 100] := by
  obtain ⟨h1, h2, h3, h4, h5⟩ := C5_retry_policy failTwiceOutcomes none none
  have h := h4 2 (by decide) (by simp [failTwiceOutcomes])
    (fun j hj => by simp [failTwiceOutcomes, hj])
  refine ⟨h.1, h.2, ?_⟩
  rw [h2, h.2]
  rfl
